import Mathlib

/-!
Verification of the reproc process-lifecycle engine (`src/reproc/src/reproc.c`)
against its natural-language specification.

The C code is shallowly embedded: each C function from `reproc.c` becomes a
Lean function of the same name.  External collaborators that are not part of
the given sources (the pipe layer, the platform spawn adapter, the monotonic
clock, the redirection planner internals) are modelled from the spec as
oracle parameters: the result of every call to such a primitive is supplied
by an environment record, so theorems quantify over all behaviours those
primitives may exhibit within their specified contracts.

Machine integers are modelled as `Int`; the one narrowing cast in the code
(`(int) (deadline - now)` inside `expiry`) is made explicit through `wrap32`.

OS handles are modelled as `Option Nat` (`none` is the invalid sentinel) and
handle/pipe allocation is tracked in an explicit allocator state `HState`
holding the list of currently open handle ids, so that resource-rollback
claims can be stated as conservation of the open-handle list.
-/

namespace Reproc

/-- Modelled from the spec (§6, §4.6): reserved timeout value `INFINITE = -1`. -/
def REPROC_INFINITE : Int := -1

/-- Modelled from the spec (§6): reserved timeout value `DEADLINE = -2`. -/
def REPROC_DEADLINE : Int := -2

/-- Status sentinel from `reproc.c`: `STATUS_NOT_STARTED = -1`. -/
def STATUS_NOT_STARTED : Int := -1

/-- Status sentinel from `reproc.c`: `STATUS_IN_PROGRESS = -2`. -/
def STATUS_IN_PROGRESS : Int := -2

/-- Status sentinel from `reproc.c`: `STATUS_IN_CHILD = -3`. -/
def STATUS_IN_CHILD : Int := -3

/-- Modelled from the spec (§6, §7): error constant `EINVAL`, a negative
platform errno value (Linux errno 22, negated as in `error.h`). -/
def REPROC_EINVAL : Int := -22

/-- Modelled from the spec (§6, §7): error constant `EPIPE` (negated errno 32). -/
def REPROC_EPIPE : Int := -32

/-- Modelled from the spec (§6, §7): error constant `ETIMEDOUT` (negated errno 110). -/
def REPROC_ETIMEDOUT : Int := -110

/-- Modelled from the spec (§6, §7): error constant `ENOMEM` (negated errno 12). -/
def REPROC_ENOMEM : Int := -12

/-- Modelled from the spec (§6): poll event bit `IN`, a disjoint bitmask. -/
def REPROC_EVENT_IN : Nat := 1

/-- Modelled from the spec (§6): poll event bit `OUT`. -/
def REPROC_EVENT_OUT : Nat := 2

/-- Modelled from the spec (§6): poll event bit `ERR`. -/
def REPROC_EVENT_ERR : Nat := 4

/-- Modelled from the spec (§6): poll event bit `EXIT`. -/
def REPROC_EVENT_EXIT : Nat := 8

/-- Modelled from the spec (§6): poll event bit `DEADLINE`. -/
def REPROC_EVENT_DEADLINE : Nat := 16

/-- The narrowing cast `(int) x` applied to an `int64_t` value, i.e. two's
complement wrap-around to 32 bits. -/
def wrap32 (x : Int) : Int := (x + 2 ^ 31) % 2 ^ 32 - 2 ^ 31

/-- Embedding of `expiry` from `reproc.c` lines 75-100.  The call to
`reproc_now()` is abstracted by the explicit `now` parameter (the monotonic
millisecond clock of the spec, §4.7). -/
def expiry (now timeout deadline : Int) : Int :=
  if timeout = REPROC_INFINITE ∧ deadline = REPROC_INFINITE then
    REPROC_INFINITE
  else if deadline = REPROC_INFINITE then
    timeout
  else if deadline ≤ now then
    0
  else
    let remaining := wrap32 (deadline - now)
    if timeout = REPROC_INFINITE then remaining else min timeout remaining

/-- C1/C5 helper: the valid-argument range of `expiry` per the spec (§4.6):
`timeout` is `INFINITE` or a non-negative millisecond count. -/
def timeoutOk (timeout : Int) : Prop :=
  timeout = REPROC_INFINITE ∨ 0 ≤ timeout

instance (timeout : Int) : Decidable (timeoutOk timeout) := by
  unfold timeoutOk; infer_instance

/-- C5 helper: the valid range of a deadline per the spec (§4.6): `INFINITE`
or an absolute monotonic timestamp at most `INT_MAX` milliseconds after
`now`. -/
def deadlineOk (now deadline : Int) : Prop :=
  deadline = REPROC_INFINITE ∨ (0 ≤ deadline ∧ deadline - now ≤ 2147483647)

instance (now deadline : Int) : Decidable (deadlineOk now deadline) := by
  unfold deadlineOk; infer_instance

/-- An OS handle: `none` is the invalid sentinel (`PIPE_INVALID`,
`HANDLE_INVALID`, `PROCESS_INVALID`), `some id` a live OS resource. -/
abbrev Handle := Option Nat

/-- Allocator state for OS handles: `next` is the next fresh id, `openh` the
list of currently open handle ids. -/
structure HState where
  next : Nat
  openh : List Nat
deriving DecidableEq, Repr, Inhabited

/-- Allocation of a fresh OS handle id. -/
def halloc (s : HState) : Nat × HState :=
  (s.next, ⟨s.next + 1, s.next :: s.openh⟩)

/-- Modelled from the spec (§4.1): releasing the resource behind a handle.
Releasing the invalid sentinel is a no-op. -/
def hdestroy (h : Handle) (s : HState) : HState :=
  match h with
  | none => s
  | some id => ⟨s.next, s.openh.erase id⟩

/-- Modelled from the spec (§4.1): `pipe_destroy`/`handle_destroy`/
`process_destroy` release the resource if valid and return the invalid
sentinel; safe on an already-invalid handle. -/
def pipe_destroy (h : Handle) (s : HState) : Handle × HState :=
  (none, hdestroy h s)

/-- Modelled from the spec (§6): stop action verbs, enum `REPROC_STOP` of
`reproc.h` (`NOOP`, `WAIT`, `TERMINATE`, `KILL`). -/
inductive REPROC_STOP
  | NOOP
  | WAIT
  | TERMINATE
  | KILL
deriving DecidableEq, Repr, Inhabited

/-- Modelled from the spec (§3): one stop action `{verb, timeout}`. -/
structure reproc_stop_action where
  action : REPROC_STOP
  timeout : Int
deriving DecidableEq, Repr, Inhabited

/-- Modelled from the spec (§3): the three stop slots `first/second/third`. -/
structure reproc_stop_actions where
  first : reproc_stop_action
  second : reproc_stop_action
  third : reproc_stop_action
deriving DecidableEq, Repr, Inhabited

/-- Embedding of `struct reproc_t` from `reproc.c` lines 16-27. -/
structure reproc_t where
  handle : Handle
  pipe_in : Handle
  pipe_out : Handle
  pipe_err : Handle
  pipe_exit : Handle
  status : Int
  stop : reproc_stop_actions
  deadline : Int
deriving DecidableEq, Repr, Inhabited

/-- Modelled from the spec (§6): stream identifiers, enum `REPROC_STREAM`. -/
inductive REPROC_STREAM
  | IN
  | OUT
  | ERR
deriving DecidableEq, Repr, Inhabited

/-- Embedding of `reproc_new` from `reproc.c` lines 124-140 (the successful
allocation case; a failed `malloc` returns `NULL` and creates no object).
The C compound literal zero-initializes the unnamed `stop` field, which
makes all three slots `{REPROC_STOP_NOOP, 0}`. -/
def reproc_new : reproc_t :=
  { handle := none
    pipe_in := none
    pipe_out := none
    pipe_err := none
    pipe_exit := none
    status := STATUS_NOT_STARTED
    stop := ⟨⟨.NOOP, 0⟩, ⟨.NOOP, 0⟩, ⟨.NOOP, 0⟩⟩
    deadline := REPROC_INFINITE }

/-- Embedding of `reproc_event_source` from `reproc.h`: a process reference,
an interests bitmask and an output events bitmask. -/
structure reproc_event_source where
  process : reproc_t
  interests : Nat
  events : Nat
deriving DecidableEq, Repr, Inhabited

/-- Embedding of `pipe_set` (pipe.h): four optional endpoints plus an output
events bitmask.  The C field names `in/out/err/exit` are prefixed with `p`
because `in` is a Lean keyword. -/
structure pipe_set where
  pin : Handle
  pout : Handle
  perr : Handle
  pexit : Handle
  events : Nat
deriving DecidableEq, Repr, Inhabited

/-- Loop of `find_earliest_deadline` (`reproc.c` lines 111-119): `i` is the
loop index, `earliest` and `mn` the accumulators (`mn` is the C local
`min`).  Every iteration's call to `reproc_now()` inside `expiry` is
abstracted by the single `now` parameter. -/
def find_earliest_go (now : Int) :
    List reproc_event_source → Nat → Nat → Int → Nat
  | [], _, earliest, _ => earliest
  | src :: rest, i, earliest, mn =>
    let current := expiry now REPROC_INFINITE src.process.deadline
    if mn = REPROC_INFINITE ∨ current < mn then
      find_earliest_go now rest (i + 1) i current
    else
      find_earliest_go now rest (i + 1) earliest mn

/-- Embedding of `find_earliest_deadline` from `reproc.c` lines 102-122. -/
def find_earliest_deadline (now : Int) (sources : List reproc_event_source) :
    Nat :=
  find_earliest_go now sources 0 0 REPROC_INFINITE

/-- Embedding of `contains_valid_pipe` from `reproc.c` lines 248-258 (note:
the C code checks only the `in`, `out` and `err` members of each set). -/
def contains_valid_pipe (sets : List pipe_set) : Bool :=
  sets.any fun s => s.pin.isSome || s.pout.isSome || s.perr.isSome

/-- Oracle environment for `reproc_poll`: the clock value, whether `calloc`
succeeds, the result of the single `pipe_wait` call and, on success, the
events it stores into each set. -/
structure PollEnv where
  now : Int
  calloc_ok : Bool
  pipe_wait_r : Int
  pipe_wait_events : Nat → Nat

/-- Result of `reproc_poll`: the returned value, the sources with their
`events` fields written, and the wait that was passed to `pipe_wait`
(`none` when `pipe_wait` was never called). -/
structure PollOut where
  r : Int
  sources : List reproc_event_source
  waited : Option Int
deriving DecidableEq, Repr

/-- Replaces the element at index `i` of a source list (C array update). -/
def modifyAt (l : List reproc_event_source) (i : Nat)
    (f : reproc_event_source → reproc_event_source) :
    List reproc_event_source :=
  l.mapIdx fun j s => if j = i then f s else s

/-- Embedding of `reproc_poll` from `reproc.c` lines 260-320.  `pipe_wait`
is abstracted by the `PollEnv` oracle; the events it stores into the sets
are copied into the sources exactly as lines 312-314 do. -/
def reproc_poll (env : PollEnv) (sources : List reproc_event_source)
    (timeout : Int) : PollOut :=
  if sources.isEmpty then ⟨REPROC_EINVAL, sources, none⟩
  else
    let earliest := find_earliest_deadline env.now sources
    let deadline := ((sources.get? earliest).map (·.process.deadline)).getD 0
    if deadline = 0 then
      ⟨0, modifyAt sources earliest
          (fun s => { s with events := REPROC_EVENT_DEADLINE }), none⟩
    else
      let first := expiry env.now timeout deadline
      if ¬ env.calloc_ok then ⟨REPROC_ENOMEM, sources, none⟩
      else
        let sets : List pipe_set := sources.map fun src =>
          { pin := if src.interests &&& REPROC_EVENT_IN ≠ 0 then
              src.process.pipe_in else none
            pout := if src.interests &&& REPROC_EVENT_OUT ≠ 0 then
              src.process.pipe_out else none
            perr := if src.interests &&& REPROC_EVENT_ERR ≠ 0 then
              src.process.pipe_err else none
            pexit := if src.interests &&& REPROC_EVENT_EXIT ≠ 0 then
              src.process.pipe_exit else none
            events := 0 }
        if ¬ contains_valid_pipe sets then ⟨REPROC_EPIPE, sources, none⟩
        else
          let r := env.pipe_wait_r
          if r = REPROC_ETIMEDOUT then
            ⟨if first = deadline then 0 else REPROC_ETIMEDOUT,
              modifyAt sources earliest (fun s =>
                { s with events :=
                    if first = deadline then REPROC_EVENT_DEADLINE else 0 }),
              some first⟩
          else if r < 0 then ⟨r, sources, some first⟩
          else
            ⟨r,
              sources.mapIdx
                (fun i s => { s with events := env.pipe_wait_events i }),
              some first⟩

end Reproc

namespace Reproc

/-- C5: under the spec preconditions, `expiry` returns `INFINITE` iff both
arguments are `INFINITE`; an `INFINITE` deadline leaves the timeout
unchanged; an already-passed deadline yields 0; otherwise the result is
`min(timeout, deadline - now)`, with an `INFINITE` timeout treated as larger
than any remaining time. -/
theorem expiry_spec (now timeout deadline : Int)
    (hnow : 0 ≤ now) (ht : timeoutOk timeout) (hd : deadlineOk now deadline) :
    (expiry now timeout deadline = REPROC_INFINITE ↔
      (timeout = REPROC_INFINITE ∧ deadline = REPROC_INFINITE)) ∧
    (deadline = REPROC_INFINITE → timeout ≠ REPROC_INFINITE →
      expiry now timeout deadline = timeout) ∧
    (deadline ≠ REPROC_INFINITE → deadline ≤ now →
      expiry now timeout deadline = 0) ∧
    (deadline ≠ REPROC_INFINITE → now < deadline → timeout ≠ REPROC_INFINITE →
      expiry now timeout deadline = min timeout (deadline - now)) ∧
    (deadline ≠ REPROC_INFINITE → now < deadline → timeout = REPROC_INFINITE →
      expiry now timeout deadline = deadline - now) := by
  unfold expiry wrap32 timeoutOk deadlineOk REPROC_INFINITE at *
  simp only [min_def]
  split_ifs <;> (try omega) <;>
    refine ⟨by rw [false_iff]; omega, by omega, by omega, by omega, by omega⟩

/-- C5 witness: the theorem instantiated at `now = 50`, `timeout = 10`,
`deadline = 100`. -/
theorem expiry_spec_witness :
    (0 : Int) ≤ 50 ∧ timeoutOk 10 ∧ deadlineOk 50 100 ∧
      expiry 50 10 100 = min 10 (100 - 50) :=
  ⟨by decide, by decide, by decide,
    ((expiry_spec 50 10 100 (by decide) (by decide) (by decide)).2.2.2.1
      (by decide) (by decide) (by decide))⟩

end Reproc

namespace Reproc

/-- C1: divergence of `find_earliest_deadline`/`reproc_poll` from the claim.
With two sources, the first holding a finite absolute deadline of 100 and
the second no deadline (`INFINITE`), at `now = 50` and caller timeout
`INFINITE`, the scan in `find_earliest_deadline` selects the
INFINITE-deadline source (index 1), because its per-source expiry is
`REPROC_INFINITE = -1`, which compares as smaller than the finite remaining
time 50 of source 0.  Consequently the wait passed to `pipe_wait` is
`INFINITE` rather than `min(timeout, 100 - 50) = 50`: the finite deadline
is ignored entirely. -/
theorem poll_picks_infinite_deadline_source :
    find_earliest_deadline 50
        [⟨{ reproc_new with deadline := 100, pipe_in := some 1 },
            REPROC_EVENT_IN, 0⟩,
          ⟨{ reproc_new with pipe_in := some 2 }, REPROC_EVENT_IN, 0⟩] = 1 ∧
    (reproc_poll ⟨50, true, 0, fun _ => 0⟩
        [⟨{ reproc_new with deadline := 100, pipe_in := some 1 },
            REPROC_EVENT_IN, 0⟩,
          ⟨{ reproc_new with pipe_in := some 2 }, REPROC_EVENT_IN, 0⟩]
        REPROC_INFINITE).waited = some REPROC_INFINITE := by
  decide

/-- C2: divergence of `reproc_poll` from the claim.  One source whose
process deadline (absolute timestamp 100) has already passed at call time
(`now = 150`), caller timeout `INFINITE`: the code does not return
immediately (the early-return guard compares the absolute deadline against
the literal 0, not against `now`), it calls `pipe_wait` with an effective
wait of 0, and when that wait reports `ETIMEDOUT` it returns the
`ETIMEDOUT` error with no `DEADLINE` event recorded, because the guard
`first == deadline` compares the relative wait 0 against the absolute
timestamp 100.  The claim requires result 0, `events = DEADLINE` on the
source, and no I/O wait. -/
theorem poll_expired_deadline_reported_as_timeout :
    (reproc_poll ⟨150, true, REPROC_ETIMEDOUT, fun _ => 0⟩
        [⟨{ reproc_new with deadline := 100, pipe_in := some 1 },
            REPROC_EVENT_IN, 0⟩] REPROC_INFINITE).r = REPROC_ETIMEDOUT ∧
    (reproc_poll ⟨150, true, REPROC_ETIMEDOUT, fun _ => 0⟩
        [⟨{ reproc_new with deadline := 100, pipe_in := some 1 },
            REPROC_EVENT_IN, 0⟩] REPROC_INFINITE).sources.map
        (fun s => s.events) = [0] ∧
    (reproc_poll ⟨150, true, REPROC_ETIMEDOUT, fun _ => 0⟩
        [⟨{ reproc_new with deadline := 100, pipe_in := some 1 },
            REPROC_EVENT_IN, 0⟩] REPROC_INFINITE).waited = some 0 := by
  decide

end Reproc

namespace Reproc

/-- Embedding of `reproc_read` from `reproc.c` lines 322-345.  The
`ASSERT_EINVAL` guards (modelled from the spec §7: caller contract
violations return `EINVAL`) come first; the result of `pipe_read` is
supplied by the oracle `read_r`.  The buffer is abstracted to its null-ness
`bufNull`; the byte contents and `size` do not influence the control flow
of the C function. -/
def reproc_read (read_r : Int) (p : reproc_t) (s : HState)
    (stream : REPROC_STREAM) (bufNull : Bool) : Int × reproc_t × HState :=
  if p.status = STATUS_IN_CHILD then (REPROC_EINVAL, p, s)
  else if ¬(stream = REPROC_STREAM.OUT ∨ stream = REPROC_STREAM.ERR) then
    (REPROC_EINVAL, p, s)
  else if bufNull then (REPROC_EINVAL, p, s)
  else
    let pipe := if stream = REPROC_STREAM.OUT then p.pipe_out else p.pipe_err
    if pipe = none then (REPROC_EPIPE, p, s)
    else
      let r := read_r
      if r = REPROC_EPIPE then
        let d := pipe_destroy pipe s
        if stream = REPROC_STREAM.OUT then (r, { p with pipe_out := d.1 }, d.2)
        else (r, { p with pipe_err := d.1 }, d.2)
      else (r, p, s)

/-- Embedding of `reproc_write` from `reproc.c` lines 347-369.  The result
of `pipe_write` is supplied by the oracle `write_r`. -/
def reproc_write (write_r : Int) (p : reproc_t) (s : HState)
    (bufNull : Bool) (size : Nat) : Int × reproc_t × HState :=
  if p.status = STATUS_IN_CHILD then (REPROC_EINVAL, p, s)
  else if bufNull then
    if size ≠ 0 then (REPROC_EINVAL, p, s) else (0, p, s)
  else if p.pipe_in = none then (REPROC_EPIPE, p, s)
  else
    let r := write_r
    if r = REPROC_EPIPE then
      let d := pipe_destroy p.pipe_in s
      (r, { p with pipe_in := d.1 }, d.2)
    else (r, p, s)

/-- Embedding of `reproc_close` from `reproc.c` lines 371-389. -/
def reproc_close (p : reproc_t) (s : HState) (stream : REPROC_STREAM) :
    Int × reproc_t × HState :=
  if p.status = STATUS_IN_CHILD then (REPROC_EINVAL, p, s)
  else
    match stream with
    | REPROC_STREAM.IN =>
      let d := pipe_destroy p.pipe_in s
      (0, { p with pipe_in := d.1 }, d.2)
    | REPROC_STREAM.OUT =>
      let d := pipe_destroy p.pipe_out s
      (0, { p with pipe_out := d.1 }, d.2)
    | REPROC_STREAM.ERR =>
      let d := pipe_destroy p.pipe_err s
      (0, { p with pipe_err := d.1 }, d.2)

end Reproc

namespace Reproc

/-- C6 counterexample: `reproc_write(p, buf, 0)` with a non-null buffer does
NOT return 0 on a process whose stdin pipe is already closed (the invalid
sentinel, as on a fresh `reproc_new` process): it returns `EPIPE`.  The
null-buffer special case at the top of `reproc_write` is the only size-0
shortcut; a non-null buffer falls through to the `pipe.in == PIPE_INVALID`
check. -/
theorem reproc_write_empty_closed_epipe :
    (reproc_write 0 reproc_new ⟨0, []⟩ false 0).1 = REPROC_EPIPE ∧
      REPROC_EPIPE ≠ 0 := by
  decide

/-- C6 amended: for a process not in the `IN_CHILD` state,
`reproc_write(p, NULL, 0)` returns 0 and leaves the process untouched, for
every state of the stdin pipe; `reproc_write(p, buf, 0)` with `buf`
non-null returns 0 (writing nothing) when the stdin pipe is open, provided
the underlying `pipe_write` reports 0 bytes written for the empty write,
but returns `EPIPE` when the stdin pipe is already closed. -/
theorem reproc_write_size_zero (write_r : Int) (p : reproc_t) (s : HState)
    (hchild : p.status ≠ STATUS_IN_CHILD) :
    (reproc_write write_r p s true 0 = (0, p, s)) ∧
    (p.pipe_in ≠ none → write_r = 0 →
      reproc_write write_r p s false 0 = (0, p, s)) ∧
    (p.pipe_in = none →
      reproc_write write_r p s false 0 = (REPROC_EPIPE, p, s)) := by
  unfold reproc_write
  refine ⟨?_, ?_, ?_⟩ <;> intros <;>
    simp_all [REPROC_EPIPE, REPROC_EINVAL, STATUS_IN_CHILD]

/-- C6 amended witness: the amended theorem applied at a concrete process
with an open stdin pipe and at one with a closed stdin pipe. -/
theorem reproc_write_size_zero_witness :
    ({ reproc_new with pipe_in := some 1 } : reproc_t).status ≠
        STATUS_IN_CHILD ∧
      ({ reproc_new with pipe_in := some 1 } : reproc_t).pipe_in ≠ none ∧
      reproc_write 0 { reproc_new with pipe_in := some 1 } ⟨2, [1]⟩ false 0 =
        (0, { reproc_new with pipe_in := some 1 }, ⟨2, [1]⟩) :=
  ⟨by decide, by decide,
    (reproc_write_size_zero 0 { reproc_new with pipe_in := some 1 } ⟨2, [1]⟩
      (by decide)).2.1 (by decide) rfl⟩

/-- C9: on a process fresh from `reproc_new` (status `NOT_STARTED`, all
pipes the invalid sentinel), `reproc_close` returns 0 for each of the three
streams, and `reproc_read` on `OUT`/`ERR` (with a non-null buffer) and
`reproc_write` (with a non-null, non-empty buffer) return `EPIPE`, which is
distinct from `EINVAL`: none of the three operations requires the process
to have been started. -/
theorem not_started_io_behaviour (read_r write_r : Int) (s : HState)
    (size : Nat) (hsize : 0 < size) :
    (reproc_close reproc_new s REPROC_STREAM.IN = (0, reproc_new, s)) ∧
    (reproc_close reproc_new s REPROC_STREAM.OUT = (0, reproc_new, s)) ∧
    (reproc_close reproc_new s REPROC_STREAM.ERR = (0, reproc_new, s)) ∧
    ((reproc_read read_r reproc_new s REPROC_STREAM.OUT false).1 =
      REPROC_EPIPE) ∧
    ((reproc_read read_r reproc_new s REPROC_STREAM.ERR false).1 =
      REPROC_EPIPE) ∧
    ((reproc_write write_r reproc_new s false size).1 = REPROC_EPIPE) ∧
    REPROC_EPIPE ≠ REPROC_EINVAL := by
  refine ⟨?_, ?_, ?_, ?_, ?_, ?_, by decide⟩ <;>
    simp [reproc_close, reproc_read, reproc_write, reproc_new, pipe_destroy,
      hdestroy, STATUS_IN_CHILD, STATUS_NOT_STARTED, REPROC_EPIPE,
      REPROC_EINVAL, REPROC_INFINITE]

/-- C9 witness: the theorem applied at concrete oracles, state and size. -/
theorem not_started_io_behaviour_witness :
    (0 : Nat) < 1 ∧
      (reproc_write 0 reproc_new ⟨0, []⟩ false 1).1 = REPROC_EPIPE :=
  ⟨by decide, (not_started_io_behaviour 0 0 ⟨0, []⟩ 1 (by decide)).2.2.2.2.2.1⟩

end Reproc

namespace Reproc

/-- Oracle environment for `reproc_wait`: the clock, the result of the
single `pipe_wait` call (as a function of the effective wait passed to it)
and the result of the `process_wait` reap. -/
structure WaitEnv where
  now : Int
  pipe_wait_r : Int → Int
  process_wait_r : Int

/-- Embedding of `reproc_wait` from `reproc.c` lines 391-429. -/
def reproc_wait (env : WaitEnv) (p : reproc_t) (s : HState) (timeout : Int) :
    Int × reproc_t × HState :=
  if p.status = STATUS_IN_CHILD then (REPROC_EINVAL, p, s)
  else if p.status = STATUS_NOT_STARTED then (REPROC_EINVAL, p, s)
  else if 0 ≤ p.status then (p.status, p, s)
  else
    let timeout := if timeout = REPROC_DEADLINE then
        expiry env.now REPROC_INFINITE p.deadline
      else timeout
    let r := env.pipe_wait_r timeout
    if r < 0 then (r, p, s)
    else
      let r := env.process_wait_r
      if r < 0 then (r, p, s)
      else
        let d := pipe_destroy p.pipe_exit s
        (r, { p with pipe_exit := d.1, status := r }, d.2)

/-- Embedding of `reproc_terminate` from `reproc.c` lines 431-442.  The
result of `process_terminate` is supplied by the oracle `term_r`. -/
def reproc_terminate (term_r : Int) (p : reproc_t) : Int × reproc_t :=
  if p.status = STATUS_IN_CHILD then (REPROC_EINVAL, p)
  else if p.status = STATUS_NOT_STARTED then (REPROC_EINVAL, p)
  else if 0 ≤ p.status then (0, p)
  else (term_r, p)

/-- Embedding of `reproc_kill` from `reproc.c` lines 444-455.  The result
of `process_kill` is supplied by the oracle `kill_r`. -/
def reproc_kill (kill_r : Int) (p : reproc_t) : Int × reproc_t :=
  if p.status = STATUS_IN_CHILD then (REPROC_EINVAL, p)
  else if p.status = STATUS_NOT_STARTED then (REPROC_EINVAL, p)
  else if 0 ≤ p.status then (0, p)
  else (kill_r, p)

end Reproc

namespace Reproc

/-- C8: on a started process whose status is already a non-negative exit
code, `reproc_wait` returns the stored code immediately for any timeout
value and any behaviour of the underlying primitives, `reproc_terminate`
and `reproc_kill` return 0, and none of the three calls modifies any field
of the process (or releases any handle). -/
theorem exited_process_is_settled (env : WaitEnv) (term_r kill_r timeout : Int)
    (p : reproc_t) (s : HState) (hexit : 0 ≤ p.status) :
    reproc_wait env p s timeout = (p.status, p, s) ∧
    reproc_terminate term_r p = (0, p) ∧
    reproc_kill kill_r p = (0, p) := by
  unfold reproc_wait reproc_terminate reproc_kill STATUS_IN_CHILD
    STATUS_NOT_STARTED
  refine ⟨?_, ?_, ?_⟩ <;> split_ifs <;> first | rfl | omega

/-- C8 witness: the theorem applied to a process with stored exit code 7. -/
theorem exited_process_is_settled_witness :
    (0 : Int) ≤ ({ reproc_new with status := 7 } : reproc_t).status ∧
      reproc_wait ⟨0, fun _ => 0, 0⟩ { reproc_new with status := 7 } ⟨0, []⟩
          REPROC_INFINITE =
        (({ reproc_new with status := 7 } : reproc_t).status,
          { reproc_new with status := 7 }, ⟨0, []⟩) :=
  ⟨by decide,
    (exited_process_is_settled ⟨0, fun _ => 0, 0⟩ 0 0 REPROC_INFINITE
      { reproc_new with status := 7 } ⟨0, []⟩ (by decide)).1⟩

end Reproc

namespace Reproc

/-- Oracle environment for `reproc_stop`: for each loop index `i` the
results of the primitives the step may invoke. -/
structure StopEnv where
  now : Int
  term_r : Nat → Int
  kill_r : Nat → Int
  pipe_wait_r : Nat → Int → Int
  process_wait_r : Nat → Int

/-- The `WaitEnv` seen by the `reproc_wait` call of stop step `i`. -/
def waitEnvAt (env : StopEnv) (i : Nat) : WaitEnv :=
  ⟨env.now, env.pipe_wait_r i, env.process_wait_r i⟩

/-- Observable operations performed by one `reproc_stop` call, in order:
signal sends and waits. -/
inductive StopEv
  | term
  | kill
  | wait (timeout : Int)
deriving DecidableEq, Repr

/-- Embedding of the `for` loop of `reproc_stop` (`reproc.c` lines 466-493)
as a recursion over the remaining actions; `i` is the loop index and the
third argument the C local `r`.  The returned list records which signal
sends and waits were actually performed (a NOOP `continue` performs
none). -/
def reproc_stop_go (env : StopEnv) :
    List reproc_stop_action → Nat → Int → reproc_t → HState → List StopEv →
      Int × reproc_t × HState × List StopEv
  | [], _, r, p, s, evs => (r, p, s, evs)
  | a :: rest, i, _, p, s, evs =>
    match a.action with
    | REPROC_STOP.NOOP => reproc_stop_go env rest (i + 1) 0 p s evs
    | REPROC_STOP.WAIT =>
      let w := reproc_wait (waitEnvAt env i) p s a.timeout
      if w.1 ≠ REPROC_ETIMEDOUT then
        (w.1, w.2.1, w.2.2, evs ++ [StopEv.wait a.timeout])
      else
        reproc_stop_go env rest (i + 1) w.1 w.2.1 w.2.2
          (evs ++ [StopEv.wait a.timeout])
    | REPROC_STOP.TERMINATE =>
      let t := reproc_terminate (env.term_r i) p
      if t.1 < 0 then (t.1, t.2, s, evs ++ [StopEv.term])
      else
        let w := reproc_wait (waitEnvAt env i) t.2 s a.timeout
        if w.1 ≠ REPROC_ETIMEDOUT then
          (w.1, w.2.1, w.2.2, evs ++ [StopEv.term, StopEv.wait a.timeout])
        else
          reproc_stop_go env rest (i + 1) w.1 w.2.1 w.2.2
            (evs ++ [StopEv.term, StopEv.wait a.timeout])
    | REPROC_STOP.KILL =>
      let t := reproc_kill (env.kill_r i) p
      if t.1 < 0 then (t.1, t.2, s, evs ++ [StopEv.kill])
      else
        let w := reproc_wait (waitEnvAt env i) t.2 s a.timeout
        if w.1 ≠ REPROC_ETIMEDOUT then
          (w.1, w.2.1, w.2.2, evs ++ [StopEv.kill, StopEv.wait a.timeout])
        else
          reproc_stop_go env rest (i + 1) w.1 w.2.1 w.2.2
            (evs ++ [StopEv.kill, StopEv.wait a.timeout])

/-- Embedding of `reproc_stop` from `reproc.c` lines 457-496. -/
def reproc_stop (env : StopEnv) (p : reproc_t) (s : HState)
    (stop : reproc_stop_actions) : Int × reproc_t × HState × List StopEv :=
  if p.status = STATUS_IN_CHILD then (REPROC_EINVAL, p, s, [])
  else if p.status = STATUS_NOT_STARTED then (REPROC_EINVAL, p, s, [])
  else reproc_stop_go env [stop.first, stop.second, stop.third] 0 (-1) p s []

/-- C4 reference procedure, written from the claim's words: for each
`{verb, timeout}` action in order, NOOP skips the step; otherwise perform
the verb (WAIT performs no action, TERMINATE/KILL send the corresponding
signal via `reproc_terminate`/`reproc_kill`) and follow the step with
`wait(timeout)`; break out of the sequence as soon as that wait returns
anything other than `ETIMEDOUT`; the result of the last operation performed
is returned. -/
def stop_spec (env : StopEnv) :
    List reproc_stop_action → Nat → Int → reproc_t → HState → List StopEv →
      Int × reproc_t × HState × List StopEv
  | [], _, r, p, s, evs => (r, p, s, evs)
  | a :: rest, i, _, p, s, evs =>
    if a.action = REPROC_STOP.NOOP then stop_spec env rest (i + 1) 0 p s evs
    else
      let sig : Int × reproc_t × List StopEv :=
        match a.action with
        | REPROC_STOP.TERMINATE =>
          let t := reproc_terminate (env.term_r i) p
          (t.1, t.2, [StopEv.term])
        | REPROC_STOP.KILL =>
          let t := reproc_kill (env.kill_r i) p
          (t.1, t.2, [StopEv.kill])
        | _ => (0, p, [])
      let w := reproc_wait (waitEnvAt env i) sig.2.1 s a.timeout
      let evs := evs ++ sig.2.2 ++ [StopEv.wait a.timeout]
      if w.1 = REPROC_ETIMEDOUT then
        stop_spec env rest (i + 1) w.1 w.2.1 w.2.2 evs
      else (w.1, w.2.1, w.2.2, evs)

/-- A process that has been started: its status is neither `NOT_STARTED`
nor `IN_CHILD`. -/
def statusStarted (p : reproc_t) : Prop :=
  p.status ≠ STATUS_IN_CHILD ∧ p.status ≠ STATUS_NOT_STARTED

instance (p : reproc_t) : Decidable (statusStarted p) := by
  unfold statusStarted; infer_instance

/-- Helper: `reproc_wait` never moves a started process back to the
`NOT_STARTED` or `IN_CHILD` statuses. -/
theorem wait_preserves_started (env : WaitEnv) (p : reproc_t) (s : HState)
    (timeout : Int) (h : statusStarted p) :
    statusStarted (reproc_wait env p s timeout).2.1 := by
  unfold reproc_wait
  split_ifs with h1 h2 h3 h4 <;> try exact h
  all_goals dsimp only
  all_goals split_ifs with h5 h6 <;> try exact h
  all_goals unfold statusStarted STATUS_IN_CHILD STATUS_NOT_STARTED at *
  all_goals dsimp only
  all_goals exact ⟨by omega, by omega⟩

end Reproc

namespace Reproc

/-- Helper for C4: with every signal send succeeding, the stop loop agrees
with the reference procedure on all action lists. -/
theorem stop_go_eq_spec (env : StopEnv)
    (hterm : ∀ i, 0 ≤ env.term_r i) (hkill : ∀ i, 0 ≤ env.kill_r i) :
    ∀ (acts : List reproc_stop_action) (i : Nat) (r : Int) (p : reproc_t)
      (s : HState) (evs : List StopEv), statusStarted p →
      reproc_stop_go env acts i r p s evs = stop_spec env acts i r p s evs := by
  intro acts
  induction acts with
  | nil => intro i r p s evs _; rfl
  | cons a rest ih =>
    intro i r p s evs hp
    match ha : a.action with
    | REPROC_STOP.NOOP =>
      simp only [reproc_stop_go, stop_spec, ha]
      exact ih (i + 1) 0 p s evs hp
    | REPROC_STOP.WAIT =>
      simp only [reproc_stop_go, stop_spec, ha]
      have hw := wait_preserves_started (waitEnvAt env i) p s a.timeout hp
      split_ifs with h1 <;> simp_all [ih]
    | REPROC_STOP.TERMINATE =>
      have ht : reproc_terminate (env.term_r i) p = (if 0 ≤ p.status then 0
          else env.term_r i, p) := by
        unfold reproc_terminate statusStarted at *
        split_ifs <;> simp_all
      have htnn : ¬ (reproc_terminate (env.term_r i) p).1 < 0 := by
        rw [ht]; have := hterm i; simp; split_ifs <;> omega
      simp only [reproc_stop_go, stop_spec, ha, if_neg htnn]
      have hw := wait_preserves_started (waitEnvAt env i)
        (reproc_terminate (env.term_r i) p).2 s a.timeout (by rw [ht]; exact hp)
      split_ifs with h1 <;> simp_all [ih, List.append_assoc]
    | REPROC_STOP.KILL =>
      have ht : reproc_kill (env.kill_r i) p = (if 0 ≤ p.status then 0
          else env.kill_r i, p) := by
        unfold reproc_kill statusStarted at *
        split_ifs <;> simp_all
      have htnn : ¬ (reproc_kill (env.kill_r i) p).1 < 0 := by
        rw [ht]; have := hkill i; simp; split_ifs <;> omega
      simp only [reproc_stop_go, stop_spec, ha, if_neg htnn]
      have hw := wait_preserves_started (waitEnvAt env i)
        (reproc_kill (env.kill_r i) p).2 s a.timeout (by rw [ht]; exact hp)
      split_ifs with h1 <;> simp_all [ih, List.append_assoc]

/-- C4: on a started process, when the signal sends themselves succeed,
`reproc_stop` executes exactly the procedure described by the claim: the
three `{verb, timeout}` actions in order, NOOP skipping the step, WAIT
performing no action before the wait, TERMINATE/KILL sending the
corresponding signal, each non-NOOP step followed by `wait(step.timeout)`,
the sequence breaking as soon as that wait returns anything other than
`ETIMEDOUT`, and the result of the last operation performed being
returned. -/
theorem reproc_stop_follows_claim (env : StopEnv) (p : reproc_t) (s : HState)
    (stop : reproc_stop_actions) (hp : statusStarted p)
    (hterm : ∀ i, 0 ≤ env.term_r i) (hkill : ∀ i, 0 ≤ env.kill_r i) :
    reproc_stop env p s stop =
      stop_spec env [stop.first, stop.second, stop.third] 0 (-1) p s [] := by
  unfold reproc_stop
  rw [if_neg hp.1, if_neg hp.2]
  exact stop_go_eq_spec env hterm hkill _ 0 (-1) p s [] hp

/-- C4 witness: the theorem applied to a concrete in-progress process with
the stop sequence TERMINATE/KILL/NOOP and concrete primitive results. -/
theorem reproc_stop_follows_claim_witness :
    statusStarted { reproc_new with status := STATUS_IN_PROGRESS } ∧
      reproc_stop ⟨0, fun _ => 0, fun _ => 0, fun _ _ => REPROC_ETIMEDOUT,
          fun _ => 0⟩
        { reproc_new with status := STATUS_IN_PROGRESS } ⟨0, []⟩
        ⟨⟨REPROC_STOP.TERMINATE, 100⟩, ⟨REPROC_STOP.KILL, 100⟩,
          ⟨REPROC_STOP.NOOP, 0⟩⟩ =
      stop_spec ⟨0, fun _ => 0, fun _ => 0, fun _ _ => REPROC_ETIMEDOUT,
          fun _ => 0⟩
        [⟨REPROC_STOP.TERMINATE, 100⟩, ⟨REPROC_STOP.KILL, 100⟩,
          ⟨REPROC_STOP.NOOP, 0⟩] 0 (-1)
        { reproc_new with status := STATUS_IN_PROGRESS } ⟨0, []⟩ [] :=
  ⟨by decide,
    reproc_stop_follows_claim _ _ _ _ (by decide) (fun _ => Int.le_refl 0)
      (fun _ => Int.le_refl 0)⟩

/-- C10: if the signal send of a TERMINATE or KILL stop step fails (the
underlying `process_terminate`/`process_kill` reports a negative error on
the in-progress process), the stop sequence aborts immediately: the result
is the signal's error, the step's wait and all remaining steps are skipped
(the performed-operation trace gains only the failed signal send) and the
process is left unchanged.  The last conjunct states it for a full
`reproc_stop` call whose failing step is the first slot; the first two
state it for the loop resumed at any step `i` with any remaining actions. -/
theorem stop_aborts_on_signal_failure (env : StopEnv) (p : reproc_t)
    (s : HState) (i : Nat) (t r0 : Int) (rest : List reproc_stop_action)
    (evs : List StopEv) (hprog : p.status = STATUS_IN_PROGRESS) :
    (env.term_r i < 0 →
      reproc_stop_go env (⟨REPROC_STOP.TERMINATE, t⟩ :: rest) i r0 p s evs =
        (env.term_r i, p, s, evs ++ [StopEv.term])) ∧
    (env.kill_r i < 0 →
      reproc_stop_go env (⟨REPROC_STOP.KILL, t⟩ :: rest) i r0 p s evs =
        (env.kill_r i, p, s, evs ++ [StopEv.kill])) ∧
    (∀ sa : reproc_stop_actions, sa.first = ⟨REPROC_STOP.TERMINATE, t⟩ →
      env.term_r 0 < 0 →
      reproc_stop env p s sa = (env.term_r 0, p, s, [StopEv.term])) := by
  have hterm : reproc_terminate (env.term_r i) p = (env.term_r i, p) := by
    unfold reproc_terminate STATUS_IN_CHILD STATUS_NOT_STARTED
      STATUS_IN_PROGRESS at *
    split_ifs <;> first | rfl | omega
  have hkill : reproc_kill (env.kill_r i) p = (env.kill_r i, p) := by
    unfold reproc_kill STATUS_IN_CHILD STATUS_NOT_STARTED
      STATUS_IN_PROGRESS at *
    split_ifs <;> first | rfl | omega
  have hterm0 : reproc_terminate (env.term_r 0) p = (env.term_r 0, p) := by
    unfold reproc_terminate STATUS_IN_CHILD STATUS_NOT_STARTED
      STATUS_IN_PROGRESS at *
    split_ifs <;> first | rfl | omega
  refine ⟨?_, ?_, ?_⟩
  · intro hneg
    simp only [reproc_stop_go, hterm, if_pos hneg]
  · intro hneg
    simp only [reproc_stop_go, hkill, if_pos hneg]
  · intro sa hfirst hneg
    unfold reproc_stop STATUS_IN_CHILD STATUS_NOT_STARTED
      STATUS_IN_PROGRESS at *
    rw [if_neg (by omega), if_neg (by omega), hfirst]
    simp only [reproc_stop_go, hterm0, if_pos hneg, List.nil_append]

/-- C10 witness: a first-slot TERMINATE whose signal send fails with -5
aborts the whole stop call with result -5 and only the signal send
performed. -/
theorem stop_aborts_on_signal_failure_witness :
    ({ reproc_new with status := STATUS_IN_PROGRESS } : reproc_t).status =
        STATUS_IN_PROGRESS ∧
      (⟨⟨REPROC_STOP.TERMINATE, 9⟩, ⟨REPROC_STOP.KILL, 9⟩,
          ⟨REPROC_STOP.NOOP, 0⟩⟩ : reproc_stop_actions).first =
        ⟨REPROC_STOP.TERMINATE, 9⟩ ∧
      (-5 : Int) < 0 ∧
      reproc_stop ⟨0, fun _ => -5, fun _ => -6, fun _ _ => 0, fun _ => 0⟩
          { reproc_new with status := STATUS_IN_PROGRESS } ⟨0, []⟩
          ⟨⟨REPROC_STOP.TERMINATE, 9⟩, ⟨REPROC_STOP.KILL, 9⟩,
            ⟨REPROC_STOP.NOOP, 0⟩⟩ =
        (-5, { reproc_new with status := STATUS_IN_PROGRESS }, ⟨0, []⟩,
          [StopEv.term]) :=
  ⟨by decide, by decide, by decide,
    (stop_aborts_on_signal_failure
        ⟨0, fun _ => -5, fun _ => -6, fun _ _ => 0, fun _ => 0⟩
        { reproc_new with status := STATUS_IN_PROGRESS } ⟨0, []⟩ 0 9 0 [] []
        (by decide)).2.2 _ rfl (by decide)⟩

end Reproc

namespace Reproc

/-- Per-stream redirection description, standing for `options.redirect.X`:
`r` is the result `redirect_init` will report; on success `parentPipe`
tells whether a parent-side pipe endpoint is created (true exactly for the
PIPE redirection, spec §4.3), and `childBorrow = some id` means the child
side is a caller-supplied handle `id` used verbatim (PARENT-HANDLE mode,
or the stdout alias, both not owned by the call), while `none` means the
call allocates a fresh child-side handle (PIPE/INHERIT-duplicate/DISCARD
modes). -/
structure RedirSpec where
  r : Int
  parentPipe : Bool
  childBorrow : Option Nat

/-- Modelled from the spec (§4.3, §4.1): `redirect_init` resolves one
stream's redirection into a (parent-side, child-side) handle pair,
allocating the endpoints the mode requires; on failure nothing is
allocated and the out-parameters are untouched. -/
def redirect_init (rs : RedirSpec) (s : HState) :
    Int × Handle × Handle × HState :=
  if rs.r < 0 then (rs.r, none, none, s)
  else
    match rs.childBorrow with
    | some id =>
      if rs.parentPipe then
        let a := halloc s
        (rs.r, some a.1, some id, a.2)
      else (rs.r, none, some id, s)
    | none =>
      if rs.parentPipe then
        let a := halloc s
        let b := halloc a.2
        (rs.r, some a.1, some b.1, b.2)
      else
        let b := halloc s
        (rs.r, none, some b.1, b.2)

/-- Modelled from the spec (§4.3, glossary): `redirect_destroy` closes the
child-side endpoint except when the redirection mode supplied it verbatim
(`borrowed`, the PARENT-HANDLE and stdout-alias modes). -/
def redirect_destroy (h : Handle) (borrowed : Bool) (s : HState) : HState :=
  if borrowed then s else hdestroy h s

/-- Modelled from the spec (§4.2): `pipe_init` creates an anonymous pipe
endpoint pair, both fresh, or fails allocating nothing. -/
def pipe_init (r : Int) (s : HState) : Int × Handle × Handle × HState :=
  if r < 0 then (r, none, none, s)
  else
    let a := halloc s
    let b := halloc a.2
    (r, some a.1, some b.1, b.2)

/-- Modelled from the spec (§4.5): `process_start` spawns the child given
the child-side endpoints; a negative result is an error (nothing
allocated, out-parameter untouched), 0 means the caller is the fork child,
a positive result means the parent, which receives a fresh process
handle. -/
def process_start (r : Int) (s : HState) : Int × Handle × HState :=
  if r < 0 then (r, none, s)
  else if r = 0 then (0, none, s)
  else
    let a := halloc s
    (r, some a.1, a.2)

/-- Oracle environment for `reproc_start`: results of the fallible
collaborators and the relevant `reproc_options` fields. -/
structure StartEnv where
  now : Int
  parse_r : Int
  init_r : Int
  rin : RedirSpec
  rout : RedirSpec
  rerr : RedirSpec
  pipe_init_r : Int
  nonblocking_r : Int
  pipe_write : Nat → Int
  process_start_r : Int
  opt_input_null : Bool
  opt_input_size : Nat
  opt_stop : reproc_stop_actions
  opt_deadline : Int

/-- Loop of `setup_input` (`reproc.c` lines 60-68): `count` indexes the
`pipe_write` oracle, `remaining` is `size - written`.  The fuel argument
returns `none` when the C loop would never terminate (possible when
`pipe_write` keeps reporting 0 bytes); since every productive iteration
writes at least one byte, fuel `size` is enough for all terminating
runs. -/
def setup_input_go (env : StartEnv) (count remaining : Nat) :
    Nat → Option Int
  | 0 => if remaining = 0 then some 0 else none
  | fuel + 1 =>
    if remaining = 0 then some 0
    else
      let r := env.pipe_write count
      if r < 0 then some r
      else setup_input_go env (count + 1) (remaining - r.toNat) fuel

/-- Embedding of `setup_input` from `reproc.c` lines 39-73 (`data == NULL`
and `size` come from `options.input`; the asserts are compiled out as in
an NDEBUG build).  On full success with data present, the stdin pipe is
destroyed; `none` models a diverging write loop. -/
def setup_input (env : StartEnv) (pipe : Handle) (s : HState) :
    Option (Int × Handle × HState) :=
  if env.opt_input_null ∨ env.opt_input_size = 0 then some (0, pipe, s)
  else
    let r := env.nonblocking_r
    if r < 0 then some (r, pipe, s)
    else
      match setup_input_go env 0 env.opt_input_size env.opt_input_size with
      | none => none
      | some r =>
        if r < 0 then some (r, pipe, s)
        else
          let d := pipe_destroy pipe s
          some (0, d.1, d.2)

/-- The local `child` record of `reproc_start` (`reproc.c` lines 149-154). -/
structure ChildHandles where
  cin : Handle
  cout : Handle
  cerr : Handle
  cexit : Handle
deriving DecidableEq, Repr, Inhabited

/-- Embedding of the `finish:` block of `reproc_start` (`reproc.c` lines
217-245): close the child-side endpoints, then on error destroy every
process-owned handle (setting the invalid sentinel), on fork-child clear
the handle fields and mark `IN_CHILD`, on parent mark `IN_PROGRESS`. -/
def reproc_start_finish (env : StartEnv) (r : Int) (p : reproc_t)
    (c : ChildHandles) (s : HState) : Int × reproc_t × HState :=
  let s := redirect_destroy c.cin env.rin.childBorrow.isSome s
  let s := redirect_destroy c.cout env.rout.childBorrow.isSome s
  let s := redirect_destroy c.cerr env.rerr.childBorrow.isSome s
  let s := hdestroy c.cexit s
  if r < 0 then
    let s := hdestroy p.handle s
    let s := hdestroy p.pipe_in s
    let s := hdestroy p.pipe_out s
    let s := hdestroy p.pipe_err s
    let s := hdestroy p.pipe_exit s
    (r,
      { p with
          handle := none, pipe_in := none, pipe_out := none,
          pipe_err := none, pipe_exit := none },
      s)
  else if r = 0 then
    (r,
      { p with
          handle := none, pipe_in := none, pipe_out := none,
          pipe_err := none, pipe_exit := none, status := STATUS_IN_CHILD },
      s)
  else
    (r, { p with status := STATUS_IN_PROGRESS }, s)

/-- Embedding of `reproc_start` from `reproc.c` lines 142-246.  Returns
`none` exactly when the input-prewrite loop diverges. -/
def reproc_start (env : StartEnv) (p : reproc_t) (s : HState) :
    Option (Int × reproc_t × HState) :=
  if p.status ≠ STATUS_NOT_STARTED then some (REPROC_EINVAL, p, s)
  else if env.parse_r < 0 then
    some (reproc_start_finish env env.parse_r p ⟨none, none, none, none⟩ s)
  else if env.init_r < 0 then
    some (reproc_start_finish env env.init_r p ⟨none, none, none, none⟩ s)
  else match redirect_init env.rin s with
  | (r1, parentIn, childIn, s1) =>
    if r1 < 0 then
      some (reproc_start_finish env r1 p ⟨none, none, none, none⟩ s1)
    else match redirect_init env.rout s1 with
    | (r2, parentOut, childOut, s2) =>
      if r2 < 0 then
        some (reproc_start_finish env r2 { p with pipe_in := parentIn }
          ⟨childIn, none, none, none⟩ s2)
      else match redirect_init env.rerr s2 with
      | (r3, parentErr, childErr, s3) =>
        if r3 < 0 then
          some (reproc_start_finish env r3
            { p with pipe_in := parentIn, pipe_out := parentOut }
            ⟨childIn, childOut, none, none⟩ s3)
        else match pipe_init env.pipe_init_r s3 with
        | (r4, parentExit, childExit, s4) =>
          if r4 < 0 then
            some (reproc_start_finish env r4
              { p with
                  pipe_in := parentIn, pipe_out := parentOut,
                  pipe_err := parentErr }
              ⟨childIn, childOut, childErr, none⟩ s4)
          else match setup_input env parentIn s4 with
          | none => none
          | some (r5, pin5, s5) =>
            if r5 < 0 then
              some (reproc_start_finish env r5
                { p with
                    pipe_in := pin5, pipe_out := parentOut,
                    pipe_err := parentErr, pipe_exit := parentExit }
                ⟨childIn, childOut, childErr, childExit⟩ s5)
            else match process_start env.process_start_r s5 with
            | (r6, handle6, s6) =>
              if r6 < 0 then
                some (reproc_start_finish env r6
                  { p with
                      pipe_in := pin5, pipe_out := parentOut,
                      pipe_err := parentErr, pipe_exit := parentExit }
                  ⟨childIn, childOut, childErr, childExit⟩ s6)
              else if 0 < r6 then
                some (reproc_start_finish env r6
                  { p with
                      handle := handle6, pipe_in := pin5,
                      pipe_out := parentOut, pipe_err := parentErr,
                      pipe_exit := parentExit, stop := env.opt_stop,
                      deadline :=
                        if env.opt_deadline ≠ REPROC_INFINITE then
                          env.now + env.opt_deadline
                        else p.deadline }
                  ⟨childIn, childOut, childErr, childExit⟩ s6)
              else
                some (reproc_start_finish env r6
                  { p with
                      handle := handle6, pipe_in := pin5,
                      pipe_out := parentOut, pipe_err := parentErr,
                      pipe_exit := parentExit }
                  ⟨childIn, childOut, childErr, childExit⟩ s6)

end Reproc

namespace Reproc

/-- Evaluation of `hdestroy` on the invalid sentinel. -/
theorem hdestroy_none (s : HState) : hdestroy none s = s := rfl

/-- Evaluation of `hdestroy` on a valid handle. -/
theorem hdestroy_some (id : Nat) (s : HState) :
    hdestroy (some id) s = ⟨s.next, s.openh.erase id⟩ := rfl

/-- The first component of `redirect_init` is the oracle result. -/
theorem redirect_init_fst (rs : RedirSpec) (s : HState) :
    (redirect_init rs s).1 = rs.r := by
  unfold redirect_init
  rcases h : rs.childBorrow with _ | id <;> simp only [h] <;>
    split_ifs <;> rfl

/-- A failing `redirect_init` allocates nothing. -/
theorem redirect_init_neg (rs : RedirSpec) (s : HState) (h : rs.r < 0) :
    redirect_init rs s = (rs.r, none, none, s) := by
  unfold redirect_init
  rw [if_pos h]

/-- The four allocation shapes of a successful `redirect_init`. -/
theorem redirect_init_shape (rs : RedirSpec) (s : HState) (r : Int)
    (hp hc : Handle) (s' : HState)
    (heq : redirect_init rs s = (r, hp, hc, s')) (hok : ¬ r < 0) :
    (∃ id, rs.childBorrow = some id ∧ hc = some id ∧
        ((hp = some s.next ∧ s' = ⟨s.next + 1, s.next :: s.openh⟩) ∨
         (hp = none ∧ s' = s))) ∨
    (rs.childBorrow = none ∧
        ((hp = some s.next ∧ hc = some (s.next + 1) ∧
            s' = ⟨s.next + 2, (s.next + 1) :: s.next :: s.openh⟩) ∨
         (hp = none ∧ hc = some s.next ∧
            s' = ⟨s.next + 1, s.next :: s.openh⟩))) := by
  unfold redirect_init at heq
  rcases h : rs.childBorrow with _ | id <;> rw [h] at heq <;>
    dsimp only at heq <;> split_ifs at heq with h1 h2 <;>
    simp only [Prod.mk.injEq, halloc] at heq
  · exact absurd (heq.1 ▸ h1) hok
  · exact Or.inr ⟨rfl, Or.inl ⟨heq.2.1.symm, heq.2.2.1.symm, heq.2.2.2.symm⟩⟩
  · exact Or.inr ⟨rfl, Or.inr ⟨heq.2.1.symm, heq.2.2.1.symm, heq.2.2.2.symm⟩⟩
  · exact absurd (heq.1 ▸ h1) hok
  · exact Or.inl ⟨id, rfl, heq.2.2.1.symm,
      Or.inl ⟨heq.2.1.symm, heq.2.2.2.symm⟩⟩
  · exact Or.inl ⟨id, rfl, heq.2.2.1.symm,
      Or.inr ⟨heq.2.1.symm, heq.2.2.2.symm⟩⟩

/-- A failing `pipe_init` allocates nothing. -/
theorem pipe_init_neg (r : Int) (s : HState) (h : r < 0) :
    pipe_init r s = (r, none, none, s) := by
  unfold pipe_init
  rw [if_pos h]

/-- A successful `pipe_init` allocates the two pipe endpoints. -/
theorem pipe_init_pos (r : Int) (s : HState) (h : ¬ r < 0) :
    pipe_init r s =
      (r, some s.next, some (s.next + 1),
        ⟨s.next + 2, (s.next + 1) :: s.next :: s.openh⟩) := by
  unfold pipe_init
  rw [if_neg h]
  simp [halloc]

/-- The first component of `process_start` is the oracle result. -/
theorem process_start_fst (r : Int) (s : HState) :
    (process_start r s).1 = r := by
  unfold process_start
  split_ifs <;> simp_all

/-- A failing `process_start` allocates nothing. -/
theorem process_start_neg (r : Int) (s : HState) (h : r < 0) :
    process_start r s = (r, none, s) := by
  unfold process_start
  rw [if_pos h]

/-- Possible outcomes of a `setup_input` call that returns. -/
theorem setup_input_cases (env : StartEnv) (pipe : Handle) (s : HState)
    (r : Int) (pin' : Handle) (s' : HState)
    (heq : setup_input env pipe s = some (r, pin', s')) :
    (r < 0 ∧ pin' = pipe ∧ s' = s) ∨
    (r = 0 ∧ ((pin' = pipe ∧ s' = s) ∨
        (pin' = none ∧ s' = hdestroy pipe s))) := by
  unfold setup_input at heq
  split_ifs at heq with ha
  · simp only [Option.some.injEq, Prod.mk.injEq] at heq
    exact Or.inr ⟨heq.1.symm, Or.inl ⟨heq.2.1.symm, heq.2.2.symm⟩⟩
  · dsimp only at heq
    split_ifs at heq with hb
    · simp only [Option.some.injEq, Prod.mk.injEq] at heq
      exact Or.inl ⟨heq.1 ▸ hb, heq.2.1.symm, heq.2.2.symm⟩
    · rcases hgo : setup_input_go env 0 env.opt_input_size env.opt_input_size
        with _ | r0 <;> rw [hgo] at heq
      · exact Option.noConfusion heq
      · dsimp only at heq
        split_ifs at heq with hc
        · simp only [Option.some.injEq, Prod.mk.injEq] at heq
          exact Or.inl ⟨heq.1 ▸ hc, heq.2.1.symm, heq.2.2.symm⟩
        · simp only [pipe_destroy, Option.some.injEq, Prod.mk.injEq] at heq
          exact Or.inr ⟨heq.1.symm, Or.inr ⟨heq.2.1.symm, heq.2.2.symm⟩⟩

/-- The first component of `reproc_start_finish` is the result it is
given. -/
theorem reproc_start_finish_fst (env : StartEnv) (e : Int) (p : reproc_t)
    (c : ChildHandles) (s : HState) :
    (reproc_start_finish env e p c s).1 = e := by
  unfold reproc_start_finish
  split_ifs <;> rfl

/-- Explicit form of the error branch of the `finish:` block. -/
theorem reproc_start_finish_neg (env : StartEnv) (e : Int) (p : reproc_t)
    (c : ChildHandles) (s : HState) (he : e < 0) :
    reproc_start_finish env e p c s =
      (e,
        { p with
            handle := none, pipe_in := none, pipe_out := none,
            pipe_err := none, pipe_exit := none },
        hdestroy p.pipe_exit (hdestroy p.pipe_err (hdestroy p.pipe_out
          (hdestroy p.pipe_in (hdestroy p.handle (hdestroy c.cexit
            (redirect_destroy c.cerr env.rerr.childBorrow.isSome
              (redirect_destroy c.cout env.rout.childBorrow.isSome
                (redirect_destroy c.cin env.rin.childBorrow.isSome
                  s))))))))) := by
  unfold reproc_start_finish
  rw [if_pos he]

end Reproc

namespace Reproc

/-- The first component of `pipe_init` is the oracle result. -/
theorem pipe_init_fst (r : Int) (s : HState) : (pipe_init r s).1 = r := by
  unfold pipe_init
  split_ifs <;> rfl

set_option maxHeartbeats 1000000 in
/-- C3: rollback on `reproc_start` failure is total.  For every environment
(that is, every combination of results and allocation behaviours of the
underlying primitives), if `reproc_start` on a `NOT_STARTED` process with
sentinel-valued handle fields returns a negative error, then the process's
handle and all four pipes are the invalid sentinel, the status is still
`NOT_STARTED`, and the open-handle list of the allocator is exactly what it
was before the call: every pipe and handle allocated during the call —
child-side endpoints included — has been destroyed. -/
theorem start_failure_rolls_back (env : StartEnv) (p : reproc_t) (s : HState)
    (r : Int) (p' : reproc_t) (s' : HState)
    (hst : p.status = STATUS_NOT_STARTED)
    (hh : p.handle = none) (h1 : p.pipe_in = none) (h2 : p.pipe_out = none)
    (h3 : p.pipe_err = none) (h4 : p.pipe_exit = none)
    (hrun : reproc_start env p s = some (r, p', s')) (hneg : r < 0) :
    p'.handle = none ∧ p'.pipe_in = none ∧ p'.pipe_out = none ∧
    p'.pipe_err = none ∧ p'.pipe_exit = none ∧
    p'.status = STATUS_NOT_STARTED ∧ s'.openh = s.openh := by
  obtain ⟨ph, pin, pout, perr, pexit, pst, pstop, pdl⟩ := p
  simp only at hst hh h1 h2 h3 h4
  subst hst hh h1 h2 h3 h4
  unfold reproc_start at hrun
  rw [if_neg (fun hcon => hcon rfl)] at hrun
  split at hrun
  · rename_i hparse
    rw [reproc_start_finish_neg _ _ _ _ _ hparse] at hrun
    simp only [Option.some.injEq, Prod.mk.injEq] at hrun
    obtain ⟨rfl, rfl, rfl⟩ := hrun
    exact ⟨rfl, rfl, rfl, rfl, rfl, rfl, by
      simp [redirect_destroy, hdestroy_none]⟩
  · split at hrun
    · rename_i hinit
      rw [reproc_start_finish_neg _ _ _ _ _ hinit] at hrun
      simp only [Option.some.injEq, Prod.mk.injEq] at hrun
      obtain ⟨rfl, rfl, rfl⟩ := hrun
      exact ⟨rfl, rfl, rfl, rfl, rfl, rfl, by
        simp [redirect_destroy, hdestroy_none]⟩
    · split at hrun
      rename_i r1 pIn cIn s1 hq1
      split at hrun
      · rename_i hf1
        have hr1 := redirect_init_fst env.rin s
        rw [hq1] at hr1
        dsimp only at hr1
        have hsh := redirect_init_neg env.rin s (hr1 ▸ hf1)
        rw [hq1] at hsh
        simp only [Prod.mk.injEq] at hsh
        obtain ⟨-, rfl, rfl, rfl⟩ := hsh
        rw [reproc_start_finish_neg _ _ _ _ _ hf1] at hrun
        simp only [Option.some.injEq, Prod.mk.injEq] at hrun
        obtain ⟨rfl, rfl, rfl⟩ := hrun
        exact ⟨rfl, rfl, rfl, rfl, rfl, rfl, by
          simp [redirect_destroy, hdestroy_none]⟩
      · rename_i hf1
        have hsh1 := redirect_init_shape env.rin s r1 pIn cIn s1 hq1 hf1
        split at hrun
        rename_i r2 pOut cOut s2 hq2
        split at hrun
        · rename_i hf2
          have hr2 := redirect_init_fst env.rout s1
          rw [hq2] at hr2
          dsimp only at hr2
          have hsh := redirect_init_neg env.rout s1 (hr2 ▸ hf2)
          rw [hq2] at hsh
          simp only [Prod.mk.injEq] at hsh
          obtain ⟨-, rfl, rfl, rfl⟩ := hsh
          rw [reproc_start_finish_neg _ _ _ _ _ hf2] at hrun
          simp only [Option.some.injEq, Prod.mk.injEq] at hrun
          obtain ⟨rfl, rfl, rfl⟩ := hrun
          refine ⟨rfl, rfl, rfl, rfl, rfl, rfl, ?_⟩
          rcases hsh1 with ⟨id1, hb1, rfl, (⟨rfl, rfl⟩ | ⟨rfl, rfl⟩)⟩ |
              ⟨hb1, (⟨rfl, rfl, rfl⟩ | ⟨rfl, rfl, rfl⟩)⟩ <;>
            simp [hb1, redirect_destroy, hdestroy_none, hdestroy_some,
              List.erase_cons_head, List.erase_cons_tail, Nat.add_assoc]
        · rename_i hf2
          have hsh2 := redirect_init_shape env.rout s1 r2 pOut cOut s2 hq2 hf2
          split at hrun
          rename_i r3 pErr cErr s3 hq3
          split at hrun
          · rename_i hf3
            have hr3 := redirect_init_fst env.rerr s2
            rw [hq3] at hr3
            dsimp only at hr3
            have hsh := redirect_init_neg env.rerr s2 (hr3 ▸ hf3)
            rw [hq3] at hsh
            simp only [Prod.mk.injEq] at hsh
            obtain ⟨-, rfl, rfl, rfl⟩ := hsh
            rw [reproc_start_finish_neg _ _ _ _ _ hf3] at hrun
            simp only [Option.some.injEq, Prod.mk.injEq] at hrun
            obtain ⟨rfl, rfl, rfl⟩ := hrun
            refine ⟨rfl, rfl, rfl, rfl, rfl, rfl, ?_⟩
            rcases hsh1 with ⟨id1, hb1, rfl, (⟨rfl, rfl⟩ | ⟨rfl, rfl⟩)⟩ |
                ⟨hb1, (⟨rfl, rfl, rfl⟩ | ⟨rfl, rfl, rfl⟩)⟩ <;>
              rcases hsh2 with ⟨id2, hb2, rfl, (⟨rfl, rfl⟩ | ⟨rfl, rfl⟩)⟩ |
                ⟨hb2, (⟨rfl, rfl, rfl⟩ | ⟨rfl, rfl, rfl⟩)⟩ <;>
              simp [hb1, hb2, redirect_destroy, hdestroy_none, hdestroy_some,
                List.erase_cons_head, List.erase_cons_tail, Nat.add_assoc]
          · rename_i hf3
            have hsh3 := redirect_init_shape env.rerr s2 r3 pErr cErr s3
              hq3 hf3
            split at hrun
            rename_i r4 pExit cExit s4 hq4
            split at hrun
            · rename_i hf4
              have hr4 := pipe_init_fst env.pipe_init_r s3
              rw [hq4] at hr4
              dsimp only at hr4
              have hsh := pipe_init_neg env.pipe_init_r s3 (hr4 ▸ hf4)
              rw [hq4] at hsh
              simp only [Prod.mk.injEq] at hsh
              obtain ⟨-, rfl, rfl, rfl⟩ := hsh
              rw [reproc_start_finish_neg _ _ _ _ _ hf4] at hrun
              simp only [Option.some.injEq, Prod.mk.injEq] at hrun
              obtain ⟨rfl, rfl, rfl⟩ := hrun
              refine ⟨rfl, rfl, rfl, rfl, rfl, rfl, ?_⟩
              rcases hsh1 with ⟨id1, hb1, rfl, (⟨rfl, rfl⟩ | ⟨rfl, rfl⟩)⟩ |
                  ⟨hb1, (⟨rfl, rfl, rfl⟩ | ⟨rfl, rfl, rfl⟩)⟩ <;>
                rcases hsh2 with ⟨id2, hb2, rfl, (⟨rfl, rfl⟩ | ⟨rfl, rfl⟩)⟩ |
                  ⟨hb2, (⟨rfl, rfl, rfl⟩ | ⟨rfl, rfl, rfl⟩)⟩ <;>
                rcases hsh3 with ⟨id3, hb3, rfl, (⟨rfl, rfl⟩ | ⟨rfl, rfl⟩)⟩ |
                  ⟨hb3, (⟨rfl, rfl, rfl⟩ | ⟨rfl, rfl, rfl⟩)⟩ <;>
                simp [hb1, hb2, hb3, redirect_destroy, hdestroy_none,
                  hdestroy_some, List.erase_cons_head, List.erase_cons_tail,
                  Nat.add_assoc]
            · rename_i hf4
              have hr4 := pipe_init_fst env.pipe_init_r s3
              rw [hq4] at hr4
              dsimp only at hr4
              have hps := pipe_init_pos env.pipe_init_r s3 (hr4 ▸ hf4)
              rw [hq4] at hps
              simp only [Prod.mk.injEq] at hps
              obtain ⟨-, rfl, rfl, rfl⟩ := hps
              split at hrun
              · exact Option.noConfusion hrun
              · rename_i r5 pin5 s5 hq5
                split at hrun
                · rename_i hf5
                  have hsc := setup_input_cases env _ _ _ _ _ hq5
                  rcases hsc with ⟨-, rfl, rfl⟩ | ⟨h50, -⟩
                  · rw [reproc_start_finish_neg _ _ _ _ _ hf5] at hrun
                    simp only [Option.some.injEq, Prod.mk.injEq] at hrun
                    obtain ⟨rfl, rfl, rfl⟩ := hrun
                    refine ⟨rfl, rfl, rfl, rfl, rfl, rfl, ?_⟩
                    rcases hsh1 with
                        ⟨id1, hb1, rfl, (⟨rfl, rfl⟩ | ⟨rfl, rfl⟩)⟩ |
                        ⟨hb1, (⟨rfl, rfl, rfl⟩ | ⟨rfl, rfl, rfl⟩)⟩ <;>
                      rcases hsh2 with
                        ⟨id2, hb2, rfl, (⟨rfl, rfl⟩ | ⟨rfl, rfl⟩)⟩ |
                        ⟨hb2, (⟨rfl, rfl, rfl⟩ | ⟨rfl, rfl, rfl⟩)⟩ <;>
                      rcases hsh3 with
                        ⟨id3, hb3, rfl, (⟨rfl, rfl⟩ | ⟨rfl, rfl⟩)⟩ |
                        ⟨hb3, (⟨rfl, rfl, rfl⟩ | ⟨rfl, rfl, rfl⟩)⟩ <;>
                      simp [hb1, hb2, hb3, redirect_destroy, hdestroy_none,
                        hdestroy_some, List.erase_cons_head,
                        List.erase_cons_tail, Nat.add_assoc]
                  · omega
                · rename_i hf5
                  split at hrun
                  rename_i r6 handle6 s6 hq6
                  have hr6 := process_start_fst env.process_start_r s5
                  rw [hq6] at hr6
                  dsimp only at hr6
                  split at hrun
                  · rename_i hf6
                    have hps6 := process_start_neg env.process_start_r s5
                      (hr6 ▸ hf6)
                    rw [hq6] at hps6
                    simp only [Prod.mk.injEq] at hps6
                    obtain ⟨-, rfl, rfl⟩ := hps6
                    rw [reproc_start_finish_neg _ _ _ _ _ hf6] at hrun
                    simp only [Option.some.injEq, Prod.mk.injEq] at hrun
                    obtain ⟨rfl, rfl, rfl⟩ := hrun
                    refine ⟨rfl, rfl, rfl, rfl, rfl, rfl, ?_⟩
                    have hsc := setup_input_cases env _ _ _ _ _ hq5
                    rcases hsc with ⟨hlt, -, -⟩ | ⟨-, hrest⟩
                    · exact absurd hlt hf5
                    · rcases hrest with ⟨rfl, rfl⟩ | ⟨rfl, rfl⟩ <;>
                        rcases hsh1 with
                          ⟨id1, hb1, rfl, (⟨rfl, rfl⟩ | ⟨rfl, rfl⟩)⟩ |
                          ⟨hb1, (⟨rfl, rfl, rfl⟩ | ⟨rfl, rfl, rfl⟩)⟩ <;>
                        rcases hsh2 with
                          ⟨id2, hb2, rfl, (⟨rfl, rfl⟩ | ⟨rfl, rfl⟩)⟩ |
                          ⟨hb2, (⟨rfl, rfl, rfl⟩ | ⟨rfl, rfl, rfl⟩)⟩ <;>
                        rcases hsh3 with
                          ⟨id3, hb3, rfl, (⟨rfl, rfl⟩ | ⟨rfl, rfl⟩)⟩ |
                          ⟨hb3, (⟨rfl, rfl, rfl⟩ | ⟨rfl, rfl, rfl⟩)⟩ <;>
                        simp [hb1, hb2, hb3, redirect_destroy, hdestroy_none,
                          hdestroy_some, List.erase_cons_head,
                          List.erase_cons_tail, Nat.add_assoc]
                  · rename_i hf6
                    split at hrun
                    · exfalso
                      have hx := Option.some.inj hrun
                      have hy := congrArg Prod.fst hx
                      rw [reproc_start_finish_fst] at hy
                      dsimp only at hy
                      omega
                    · exfalso
                      have hx := Option.some.inj hrun
                      have hy := congrArg Prod.fst hx
                      rw [reproc_start_finish_fst] at hy
                      dsimp only at hy
                      omega

end Reproc

namespace Reproc

/-- C3 witness: a start that allocates stdin/stdout pipes, a borrowed
stderr child handle and the exit pipe, prewrites 2 bytes of input, and then
fails at `process_start` with -7; the theorem applied there shows the
rollback restores the empty open-handle list. -/
theorem start_failure_rolls_back_witness :
    reproc_new.status = STATUS_NOT_STARTED ∧ (-7 : Int) < 0 ∧
      (reproc_new.handle = none ∧ reproc_new.pipe_in = none ∧
        reproc_new.pipe_out = none ∧ reproc_new.pipe_err = none ∧
        reproc_new.pipe_exit = none ∧
        reproc_new.status = STATUS_NOT_STARTED ∧
        (⟨6, []⟩ : HState).openh = (⟨0, []⟩ : HState).openh) :=
  ⟨by decide, by decide,
    start_failure_rolls_back
      ⟨0, 0, 0, ⟨0, true, none⟩, ⟨0, true, none⟩, ⟨0, false, some 99⟩, 0, 0,
        fun _ => 2, -7, false, 2, ⟨⟨.NOOP, 0⟩, ⟨.NOOP, 0⟩, ⟨.NOOP, 0⟩⟩, -1⟩
      reproc_new ⟨0, []⟩ (-7) reproc_new ⟨6, []⟩ (by decide) (by decide)
      (by decide) (by decide) (by decide) (by decide) (by decide)
      (by decide)⟩

end Reproc

namespace Reproc

/-- One invocation of a lifecycle operation on an existing process,
together with the oracle environment and arguments it is called with. -/
inductive Op
  | startOp (env : StartEnv)
  | readOp (read_r : Int) (stream : REPROC_STREAM) (bufNull : Bool)
  | writeOp (write_r : Int) (bufNull : Bool) (size : Nat)
  | closeOp (stream : REPROC_STREAM)
  | waitOp (env : WaitEnv) (timeout : Int)
  | terminateOp (term_r : Int)
  | killOp (kill_r : Int)
  | stopOp (env : StopEnv) (stop : reproc_stop_actions)

/-- Dispatch of an `Op` to the corresponding embedded library function
(`none` only for a diverging input-prewrite loop in `reproc_start`). -/
def applyOp (op : Op) (p : reproc_t) (s : HState) :
    Option (Int × reproc_t × HState) :=
  match op with
  | Op.startOp env => reproc_start env p s
  | Op.readOp rr st bn => some (reproc_read rr p s st bn)
  | Op.writeOp wr bn sz => some (reproc_write wr p s bn sz)
  | Op.closeOp st => some (reproc_close p s st)
  | Op.waitOp env t => some (reproc_wait env p s t)
  | Op.terminateOp tr =>
    some ((reproc_terminate tr p).1, (reproc_terminate tr p).2, s)
  | Op.killOp kr => some ((reproc_kill kr p).1, (reproc_kill kr p).2, s)
  | Op.stopOp env sa =>
    match reproc_stop env p s sa with
    | (r, p', s', _) => some (r, p', s')

/-- The statuses a process can hold (spec §3): the three sentinels or a
non-negative exit code. -/
def validStatus (st : Int) : Prop :=
  st = STATUS_NOT_STARTED ∨ st = STATUS_IN_PROGRESS ∨
  st = STATUS_IN_CHILD ∨ 0 ≤ st

instance (st : Int) : Decidable (validStatus st) := by
  unfold validStatus; infer_instance

/-- The monotone status-transition relation claimed by the spec:
unchanged, or `NOT_STARTED` to `IN_PROGRESS`/`IN_CHILD`, or `IN_PROGRESS`
to a non-negative exit code.  A terminal status (`IN_CHILD` or an exit
code) admits no change. -/
def allowedTransition (st st' : Int) : Prop :=
  st' = st ∨
  (st = STATUS_NOT_STARTED ∧
    (st' = STATUS_IN_PROGRESS ∨ st' = STATUS_IN_CHILD)) ∨
  (st = STATUS_IN_PROGRESS ∧ 0 ≤ st')

instance (st st' : Int) : Decidable (allowedTransition st st') := by
  unfold allowedTransition; infer_instance

/-- Restricted transitivity of the transition relation: valid from any
status other than `NOT_STARTED`. -/
theorem allowedTransition_trans (a b c : Int)
    (hne : a ≠ STATUS_NOT_STARTED) (h1 : allowedTransition a b)
    (h2 : allowedTransition b c) : allowedTransition a c := by
  unfold allowedTransition STATUS_NOT_STARTED STATUS_IN_PROGRESS
    STATUS_IN_CHILD at *
  omega

/-- Status facts about one `reproc_wait` call: the transition is allowed,
validity is preserved, and the status either stays or becomes an exit
code. -/
theorem wait_status_facts (env : WaitEnv) (p : reproc_t) (s : HState)
    (t : Int) (hv : validStatus p.status) :
    allowedTransition p.status (reproc_wait env p s t).2.1.status ∧
    validStatus (reproc_wait env p s t).2.1.status ∧
    ((reproc_wait env p s t).2.1.status = p.status ∨
      0 ≤ (reproc_wait env p s t).2.1.status) := by
  unfold reproc_wait
  split_ifs with h1 h2 h3 h4 <;>
    try exact ⟨Or.inl rfl, hv, Or.inl rfl⟩
  all_goals dsimp only
  all_goals split_ifs with h5 h6 <;> try exact ⟨Or.inl rfl, hv, Or.inl rfl⟩
  all_goals
    unfold validStatus allowedTransition STATUS_NOT_STARTED
      STATUS_IN_PROGRESS STATUS_IN_CHILD at *
  all_goals dsimp only
  all_goals exact ⟨by omega, by omega, by omega⟩

/-- `reproc_terminate` never writes the process. -/
theorem reproc_terminate_snd (tr : Int) (p : reproc_t) :
    (reproc_terminate tr p).2 = p := by
  unfold reproc_terminate
  split_ifs <;> rfl

/-- `reproc_kill` never writes the process. -/
theorem reproc_kill_snd (kr : Int) (p : reproc_t) :
    (reproc_kill kr p).2 = p := by
  unfold reproc_kill
  split_ifs <;> rfl

/-- The status assigned by the `finish:` block of `reproc_start`. -/
theorem reproc_start_finish_status (env : StartEnv) (e : Int) (p : reproc_t)
    (c : ChildHandles) (s : HState) :
    (reproc_start_finish env e p c s).2.1.status =
      if e < 0 then p.status
      else if e = 0 then STATUS_IN_CHILD
      else STATUS_IN_PROGRESS := by
  unfold reproc_start_finish
  split_ifs <;> rfl

/-- Status transitions of the stop loop are allowed (the loop never runs
on a `NOT_STARTED` process). -/
theorem stop_go_status (env : StopEnv) :
    ∀ (acts : List reproc_stop_action) (i : Nat) (r0 : Int) (p : reproc_t)
      (s : HState) (evs : List StopEv),
      validStatus p.status → p.status ≠ STATUS_NOT_STARTED →
      allowedTransition p.status
        (reproc_stop_go env acts i r0 p s evs).2.1.status := by
  intro acts
  induction acts with
  | nil => intro i r0 p s evs hv hns; exact Or.inl rfl
  | cons a rest ih =>
    intro i r0 p s evs hv hns
    match ha : a.action with
    | REPROC_STOP.NOOP =>
      simp only [reproc_stop_go, ha]
      exact ih (i + 1) 0 p s evs hv hns
    | REPROC_STOP.WAIT =>
      simp only [reproc_stop_go, ha]
      have hw := wait_status_facts (waitEnvAt env i) p s a.timeout hv
      split_ifs with h1
      · exact hw.1
      · refine allowedTransition_trans _ _ _ hns hw.1
          (ih (i + 1) _ _ _ _ hw.2.1 ?_)
        rcases hw.2.2 with he | he
        · rw [he]; exact hns
        · intro hcon
          rw [hcon] at he
          unfold STATUS_NOT_STARTED at he
          omega
    | REPROC_STOP.TERMINATE =>
      simp only [reproc_stop_go, ha]
      rw [reproc_terminate_snd]
      have hw := wait_status_facts (waitEnvAt env i) p s a.timeout hv
      split_ifs with h1 h2
      · exact Or.inl rfl
      · exact hw.1
      · refine allowedTransition_trans _ _ _ hns hw.1
          (ih (i + 1) _ _ _ _ hw.2.1 ?_)
        rcases hw.2.2 with he | he
        · rw [he]; exact hns
        · intro hcon
          rw [hcon] at he
          unfold STATUS_NOT_STARTED at he
          omega
    | REPROC_STOP.KILL =>
      simp only [reproc_stop_go, ha]
      rw [reproc_kill_snd]
      have hw := wait_status_facts (waitEnvAt env i) p s a.timeout hv
      split_ifs with h1 h2
      · exact Or.inl rfl
      · exact hw.1
      · refine allowedTransition_trans _ _ _ hns hw.1
          (ih (i + 1) _ _ _ _ hw.2.1 ?_)
        rcases hw.2.2 with he | he
        · rw [he]; exact hns
        · intro hcon
          rw [hcon] at he
          unfold STATUS_NOT_STARTED at he
          omega

set_option maxHeartbeats 1000000 in
/-- Status transitions of `reproc_start` are allowed. -/
theorem start_status (env : StartEnv) (p : reproc_t) (s : HState)
    (out : Int × reproc_t × HState)
    (happ : reproc_start env p s = some out) :
    allowedTransition p.status out.2.1.status := by
  unfold reproc_start at happ
  by_cases hns : p.status ≠ STATUS_NOT_STARTED
  · rw [if_pos hns] at happ
    obtain rfl := (Option.some.inj happ).symm
    exact Or.inl rfl
  · rw [if_neg hns] at happ
    have hst : p.status = STATUS_NOT_STARTED := not_not.mp hns
    split at happ
    · rename_i he
      obtain rfl := (Option.some.inj happ).symm
      rw [reproc_start_finish_status, if_pos he]
      exact Or.inl rfl
    · split at happ
      · rename_i he
        obtain rfl := (Option.some.inj happ).symm
        rw [reproc_start_finish_status, if_pos he]
        exact Or.inl rfl
      · split at happ
        rename_i r1 pIn cIn s1 hq1
        split at happ
        · rename_i he
          obtain rfl := (Option.some.inj happ).symm
          rw [reproc_start_finish_status, if_pos he]
          exact Or.inl rfl
        · split at happ
          rename_i r2 pOut cOut s2 hq2
          split at happ
          · rename_i he
            obtain rfl := (Option.some.inj happ).symm
            rw [reproc_start_finish_status, if_pos he]
            exact Or.inl rfl
          · split at happ
            rename_i r3 pErr cErr s3 hq3
            split at happ
            · rename_i he
              obtain rfl := (Option.some.inj happ).symm
              rw [reproc_start_finish_status, if_pos he]
              exact Or.inl rfl
            · split at happ
              rename_i r4 pExit cExit s4 hq4
              split at happ
              · rename_i he
                obtain rfl := (Option.some.inj happ).symm
                rw [reproc_start_finish_status, if_pos he]
                exact Or.inl rfl
              · split at happ
                · exact Option.noConfusion happ
                · rename_i r5 pin5 s5 hq5
                  split at happ
                  · rename_i he
                    obtain rfl := (Option.some.inj happ).symm
                    rw [reproc_start_finish_status, if_pos he]
                    exact Or.inl rfl
                  · split at happ
                    rename_i r6 handle6 s6 hq6
                    split at happ
                    · rename_i he
                      obtain rfl := (Option.some.inj happ).symm
                      rw [reproc_start_finish_status, if_pos he]
                      exact Or.inl rfl
                    · rename_i he
                      split at happ
                      · rename_i hpos
                        obtain rfl := (Option.some.inj happ).symm
                        rw [reproc_start_finish_status, if_neg he,
                          if_neg (by omega)]
                        exact Or.inr (Or.inl ⟨hst, Or.inl rfl⟩)
                      · rename_i hpos
                        obtain rfl := (Option.some.inj happ).symm
                        rw [reproc_start_finish_status, if_neg he,
                          if_pos (by omega)]
                        exact Or.inr (Or.inl ⟨hst, Or.inr rfl⟩)

/-- C7: across all lifecycle operations, the status of a process moves
only along the monotone transition relation: from `NOT_STARTED` only to
`IN_PROGRESS` or the terminal `IN_CHILD` (both via start), from
`IN_PROGRESS` only to a terminal non-negative exit code (via the wait
inside `reproc_wait`/`reproc_stop`), and a terminal status never changes.
Since the status is a single integer field, a process is in exactly one
status at any time. -/
theorem status_transitions_monotone (op : Op) (p : reproc_t) (s : HState)
    (out : Int × reproc_t × HState) (hv : validStatus p.status)
    (happ : applyOp op p s = some out) :
    allowedTransition p.status out.2.1.status := by
  cases op with
  | startOp env => exact start_status env p s out happ
  | readOp rr st bn =>
    obtain rfl := (Option.some.inj happ).symm
    unfold reproc_read
    split_ifs <;> try exact Or.inl rfl
    all_goals dsimp only
    all_goals split_ifs <;> exact Or.inl rfl
  | writeOp wr bn sz =>
    obtain rfl := (Option.some.inj happ).symm
    unfold reproc_write
    split_ifs <;> try exact Or.inl rfl
    all_goals dsimp only
    all_goals split_ifs <;> exact Or.inl rfl
  | closeOp st =>
    obtain rfl := (Option.some.inj happ).symm
    unfold reproc_close
    split_ifs
    · exact Or.inl rfl
    · cases st <;> exact Or.inl rfl
  | waitOp env t =>
    obtain rfl := (Option.some.inj happ).symm
    exact (wait_status_facts env p s t hv).1
  | terminateOp tr =>
    obtain rfl := (Option.some.inj happ).symm
    rw [reproc_terminate_snd]
    exact Or.inl rfl
  | killOp kr =>
    obtain rfl := (Option.some.inj happ).symm
    rw [reproc_kill_snd]
    exact Or.inl rfl
  | stopOp env sa =>
    unfold applyOp reproc_stop at happ
    split_ifs at happ
    · obtain rfl := (Option.some.inj happ).symm
      exact Or.inl rfl
    · obtain rfl := (Option.some.inj happ).symm
      exact Or.inl rfl
    · rename_i hc hns
      have := stop_go_status env [sa.first, sa.second, sa.third] 0 (-1) p s
        [] hv hns
      obtain rfl := (Option.some.inj happ).symm
      exact this

/-- C7 witness: a `reproc_wait` on an in-progress process whose reap
returns exit code 3 performs the allowed transition
`IN_PROGRESS → 3`. -/
theorem status_transitions_monotone_witness :
    validStatus ({ reproc_new with status := STATUS_IN_PROGRESS } :
        reproc_t).status ∧
      applyOp (Op.waitOp ⟨0, fun _ => 0, 3⟩ REPROC_INFINITE)
          { reproc_new with status := STATUS_IN_PROGRESS } ⟨0, []⟩ =
        some (3, { reproc_new with status := 3 }, ⟨0, []⟩) ∧
      allowedTransition
        ({ reproc_new with status := STATUS_IN_PROGRESS } :
          reproc_t).status
        ((3 : Int), ({ reproc_new with status := 3 } : reproc_t),
          (⟨0, []⟩ : HState)).2.1.status :=
  ⟨by decide, by decide,
    status_transitions_monotone
      (Op.waitOp ⟨0, fun _ => 0, 3⟩ REPROC_INFINITE)
      { reproc_new with status := STATUS_IN_PROGRESS } ⟨0, []⟩
      (3, { reproc_new with status := 3 }, ⟨0, []⟩) (by decide) (by decide)⟩

end Reproc
